import Mathlib

/-!
# Verification of the picoclaw authentication core

Shallow embedding of the authentication/token core of the repository:

* `scripts/moodle_sso_refresh.py` — the SAML2 SSO bridge (`FormParser`,
  `refresh_token`): form scanning, the scripted login flow, base64 padding
  restoration and the `:::`-delimited token split.
* `scripts/email_dashboard.py` — `TokenManager` (credential store, OAuth2
  refresh margin, refresh-token grant, device-code poll loop).

Python strings become `String`, dicts become association lists with Python
dict update semantics, wall-clock instants become `Int` (the comparisons in
the source are exact at the modelled granularity), HTTP traffic is replaced
by scripted responses threaded explicitly, and every `err`/`raise`/early
return becomes a constructor of an explicit outcome type.

Python library routines used by the source (`str.split`, `in`,
`str.startswith`, `str.lower`) are re-implemented below with their Python
semantics on the inputs the source feeds them, using structural recursion so
that all definitions evaluate inside the kernel.
-/

/-! ## Python string primitives -/

/-- Python `needle in hay` (substring containment) on character lists:
true iff `needle` is a prefix of some suffix of `hay`. -/
def containsSubAux (needle : List Char) : List Char → Bool
  | [] => needle.isEmpty
  | c :: rest => needle.isPrefixOf (c :: rest) || containsSubAux needle rest

/-- Python `needle in hay` for strings. -/
def pyContains (hay needle : String) : Bool :=
  containsSubAux needle.data hay.data

/-- Python `s.startswith(p)`. -/
def pyStartsWith (s p : String) : Bool :=
  p.data.isPrefixOf s.data

/-- ASCII lower-casing of a character (the source only lower-cases ASCII
attribute values such as `POST`). -/
def lowerChar (c : Char) : Char :=
  if 65 ≤ c.toNat ∧ c.toNat ≤ 90 then Char.ofNat (c.toNat + 32) else c

/-- Python `s.lower()` restricted to ASCII (agrees with Python on the
attribute values the source inspects). -/
def pyLower (s : String) : String :=
  String.mk (s.data.map lowerChar)

/-- Fuel-indexed worker for Python `str.split(sep)`: leftmost,
non-overlapping matches of `sep`; `acc` holds the current piece reversed.
The fuel is an upper bound on the scanned length, so the exhaustion arm is
unreachable when the worker is called with fuel `≥` the input length. -/
def pySplitAux (sep : List Char) : Nat → List Char → List Char → List (List Char)
  | _, [], acc => [acc.reverse]
  | 0, s, acc => [acc.reverse ++ s]
  | fuel + 1, c :: rest, acc =>
    if sep.isPrefixOf (c :: rest) then
      acc.reverse :: pySplitAux sep fuel (List.drop sep.length (c :: rest)) []
    else
      pySplitAux sep fuel rest (c :: acc)

/-- Python `s.split(sep)` for a non-empty separator (the source only splits
on `":::"`). -/
def pySplit (s sep : String) : List String :=
  (pySplitAux sep.data s.data.length s.data []).map (fun l => String.mk l)

/-- Python dict assignment `d[k] = v` on an association list: replace the
first binding of `k`, else append a new binding. -/
def upsert {β : Type} : List (String × β) → String → β → List (String × β)
  | [], k, v => [(k, v)]
  | p :: rest, k, v => if p.1 = k then (k, v) :: rest else p :: upsert rest k v

/-- Python `d.get(k)` on an association list built by `dict(...)`: last
binding wins, as in the `dict` constructor applied to an attribute list. -/
def dgetOpt (attrs : List (String × String)) (k : String) : Option String :=
  (attrs.reverse.find? (fun p => p.1 = k)).map (fun p => p.2)

/-- Python `d.get(k, dflt)`. -/
def dget (attrs : List (String × String)) (k dflt : String) : String :=
  (dgetOpt attrs k).getD dflt

/-! ## FormParser (`moodle_sso_refresh.py`, lines 30–46)

The Python class reacts only to start tags (`handle_starttag`); the HTML
tokenisation itself is done by the standard library's `HTMLParser`.  The
embedding therefore works on the stream of start-tag events (tag name plus
attribute list, both already lower-cased by the tokenizer, attributes with
explicit values — the shape every page in this flow has), and `feed` is a
fold of `handle_starttag` over that stream. -/

/-- One start-tag event delivered by the HTML tokenizer. -/
structure StartTag where
  tag : String
  attrs : List (String × String)

/-- The mutable state of `FormParser`: `action` (initially `None`) and the
`fields` dict (initially empty). -/
structure FormParserState where
  action : Option String
  fields : List (String × String)
deriving DecidableEq

/-- `FormParser.handle_starttag`: a `form` tag with `method` equal
(case-insensitively) to `post` sets `action` to the form's `action`
attribute (default `""`); an `input` tag with `type="hidden"` and a
non-empty `name` upserts `fields[name] = value`.  Note the source never
clears `fields` when a new form opens. -/
def handleStartTag (st : FormParserState) (e : StartTag) : FormParserState :=
  let st1 :=
    if e.tag = "form" ∧ pyLower (dget e.attrs "method" "") = "post" then
      { st with action := some (dget e.attrs "action" "") }
    else st
  if e.tag = "input" ∧ dgetOpt e.attrs "type" = some "hidden" then
    let name := dget e.attrs "name" ""
    let val := dget e.attrs "value" ""
    if name ≠ "" then { st1 with fields := upsert st1.fields name val } else st1
  else st1

/-- `FormParser(); fp.feed(page)` at the start-tag level. -/
def feedForm (events : List StartTag) : FormParserState :=
  events.foldl handleStartTag ⟨none, []⟩

/-- Start-tag event of `<form method="post" action=a>`. -/
def formPostTag (a : String) : StartTag :=
  ⟨"form", [("method", "post"), ("action", a)]⟩

/-- Start-tag event of `<input type="hidden" name=n value=v>`. -/
def hiddenInputTag (n v : String) : StartTag :=
  ⟨"input", [("type", "hidden"), ("name", n), ("value", v)]⟩

/-! ## Mobile-token decoding (`moodle_sso_refresh.py`, lines 193–205) -/

/-- Padding restoration (lines 195–197): `padding = 4 - len(raw) % 4`;
append that many `'='` unless `padding == 4`. -/
def fixPadding (raw : String) : String :=
  let padding := 4 - raw.length % 4
  if padding ≠ 4 then raw ++ String.mk (List.replicate padding '=') else raw

/-- The standard base64 alphabet, by index. -/
def b64Char (n : Nat) : Char :=
  if n < 26 then Char.ofNat (65 + n)
  else if n < 52 then Char.ofNat (97 + (n - 26))
  else if n < 62 then Char.ofNat (48 + (n - 52))
  else if n = 62 then '+' else '/'

/-- Index of a character in the base64 alphabet, `none` outside it. -/
def b64Val (c : Char) : Option Nat :=
  let v := c.toNat
  if 65 ≤ v ∧ v ≤ 90 then some (v - 65)
  else if 97 ≤ v ∧ v ≤ 122 then some (26 + (v - 97))
  else if 48 ≤ v ∧ v ≤ 57 then some (52 + (v - 48))
  else if v = 43 then some 62
  else if v = 47 then some 63
  else none

/-- RFC 4648 base64 encoding of a byte list (bytes as `Nat < 256`),
producing the padded character stream.  This models the encoder whose
output the platform places in the redirect URL. -/
def b64EncodeList : List Nat → List Char
  | [] => []
  | [a] => [b64Char (a / 4), b64Char (a % 4 * 16), '=', '=']
  | [a, b] => [b64Char (a / 4), b64Char (a % 4 * 16 + b / 16), b64Char (b % 16 * 4), '=']
  | a :: b :: c :: rest =>
    b64Char (a / 4) :: b64Char (a % 4 * 16 + b / 16) ::
      b64Char (b % 16 * 4 + c / 64) :: b64Char (c % 64) :: b64EncodeList rest

/-- Base64 decoding of a padded character stream (models Python's
`base64.b64decode` on alphabet-only input: strict 4-character blocks,
`=`-padding only at the end, trailing bits ignored). -/
def b64DecodeList : List Char → Option (List Nat)
  | [] => some []
  | c1 :: c2 :: c3 :: c4 :: rest =>
    match b64Val c1, b64Val c2 with
    | some v1, some v2 =>
      if c3 = '=' then
        if c4 = '=' ∧ rest = [] then some [v1 * 4 + v2 / 16] else none
      else
        match b64Val c3 with
        | some v3 =>
          if c4 = '=' then
            if rest = [] then some [v1 * 4 + v2 / 16, v2 % 16 * 16 + v3 / 4] else none
          else
            match b64Val c4 with
            | some v4 =>
              (b64DecodeList rest).map
                (fun bs => (v1 * 4 + v2 / 16) :: (v2 % 16 * 16 + v3 / 4) :: (v3 % 4 * 64 + v4) :: bs)
            | none => none
        | none => none
    | _, _ => none
  | _ => none

/-- Byte-to-text decoding of the base64 payload.  The source uses
`decode(errors="replace")`, i.e. UTF-8; on the ASCII payloads of this flow
(`passport:::token[:::privateToken]`) that is the identity embedding used
here. -/
def bytesToStr (bs : List Nat) : String :=
  String.mk (bs.map Char.ofNat)

/-- Python `s[:n]`. -/
def pyTake (s : String) (n : Nat) : String :=
  String.mk (s.data.take n)

/-- Lines 200–205: split the decoded text on `":::"`; fewer than two parts
is the malformed-token failure (carrying `decoded[:50]`), otherwise the
second part is the token. -/
def parseDecodedToken (decoded : String) : Except String String :=
  match pySplit decoded ":::" with
  | _ :: t :: _ => Except.ok t
  | _ => Except.error ("Unexpected token format: " ++ pyTake decoded 50)

/-! ## TokenManager credentials (`email_dashboard.py`) -/

/-- One account's credential dict `self._creds`, with the keys the source
reads and writes; absent keys are `none`. -/
structure StoredCreds where
  auth_type : Option String
  password : Option String
  access_token : Option String
  refresh_token : Option String
  expires_at : Option Int
deriving DecidableEq

/-- `TOKEN_EXPIRY_MARGIN = 300` (line 33). -/
def TOKEN_EXPIRY_MARGIN : Int := 300

/-- What `get_access_token` (lines 112–119) decides to do, before any
network traffic: not an OAuth2 credential, return the cached access token,
or fall through to `_refresh_token()`. -/
inductive AccessTokenStep
  | notOAuth2
  | cached (tok : Option String)
  | refreshAttempt
deriving DecidableEq

/-- `get_access_token` decision logic: `None` unless `auth_type ==
"oauth2"`; cached token iff `time.time() < expires_at -
TOKEN_EXPIRY_MARGIN` (with `expires_at` defaulting to 0); otherwise a
refresh attempt. -/
def getAccessTokenStep (c : StoredCreds) (now : Int) : AccessTokenStep :=
  if c.auth_type ≠ some "oauth2" then AccessTokenStep.notOAuth2
  else if now < c.expires_at.getD 0 - TOKEN_EXPIRY_MARGIN then
    AccessTokenStep.cached c.access_token
  else AccessTokenStep.refreshAttempt

/-- `is_token_expired` (lines 121–125): `True` unless `auth_type ==
"oauth2"`, else `time.time() >= expires_at - TOKEN_EXPIRY_MARGIN`. -/
def isTokenExpired (c : StoredCreds) (now : Int) : Bool :=
  if c.auth_type ≠ some "oauth2" then true
  else decide (c.expires_at.getD 0 - TOKEN_EXPIRY_MARGIN ≤ now)

/-- A parsed JSON body from the OAuth2 token endpoint, with the keys the
source reads. -/
structure TokenResp where
  access_token : Option String
  refresh_token : Option String
  expires_in : Option Int
  error : Option String
  error_description : Option String
deriving DecidableEq

/-- Outcome of one `requests.post` to the token endpoint: a transport-level
`requests.RequestException`, or an HTTP response with a status code and a
body (`none` when the body is not valid JSON). -/
inductive HttpResult
  | netErr
  | resp (status : Nat) (body : Option TokenResp)
deriving DecidableEq

/-- `_refresh_token` (lines 127–153).  `Except` separates uncaught Python
exceptions (`.error`) from ordinary returns: the source catches only
`requests.RequestException` (which covers transport errors and
`raise_for_status`, the latter raising exactly for statuses in
`[400, 600)`), returning `None`; a 2xx response whose body is not JSON or
lacks `access_token` would escape the `except` clause.  On success the
creds dict is updated in place (rotating `refresh_token` only if supplied)
and the new access token returned. -/
def refreshTokenStep (c : StoredCreds) (r : HttpResult) (now : Int) :
    Except String (Option String × StoredCreds) :=
  let refresh := c.refresh_token.getD ""
  if refresh = "" then Except.ok (none, c)
  else
    match r with
    | HttpResult.netErr => Except.ok (none, c)
    | HttpResult.resp status body =>
      if 400 ≤ status ∧ status < 600 then Except.ok (none, c)
      else
        match body with
        | none => Except.error "ValueError: response body is not JSON"
        | some td =>
          match td.access_token with
          | none => Except.error "KeyError: access_token"
          | some tok =>
            let c2 := { c with
              access_token := some tok,
              refresh_token := some (td.refresh_token.getD refresh),
              expires_at := some (now + td.expires_in.getD 3600) }
            Except.ok (some tok, c2)

/-! ## Device-code poll loop (`run_device_code_flow`, lines 166–211) -/

/-- Observable actions of the poll loop: one `time.sleep(interval)` or one
token request. -/
inductive PollEv
  | sleep (seconds : Nat)
  | poll
deriving DecidableEq

/-- Terminal outcome of the poll loop.  `success` carries the returned
access token and the credential dict the source stores before returning;
`scriptExhausted` marks running off the end of the scripted responses
(never reached in the scenarios proved below). -/
inductive PollResult
  | success (tok : String) (saved : StoredCreds)
  | consentRequired
  | failed (code desc : String)
  | timeout
  | scriptExhausted
deriving DecidableEq

/-- The `while time.time() < expires_at_poll` loop (lines 170–209), with the
token endpoint scripted as a list of parsed response bodies consumed one per
request.  Each iteration first sleeps `interval` (advancing the clock by
exactly the slept amount) and then issues one request; `access_token`
present returns success, `authorization_pending` continues unchanged,
`slow_down` adds 5 to the interval and continues, an `AADSTS65001`
description exits for admin consent, anything else raises a terminal
failure; an exhausted clock ends the loop with the `TimeoutError`. -/
def pollLoop : List TokenResp → Nat → Nat → Nat → PollResult × List PollEv
  | [], _, now, deadline =>
    if now < deadline then (PollResult.scriptExhausted, []) else (PollResult.timeout, [])
  | r :: rest, interval, now, deadline =>
    if now < deadline then
      let now2 := now + interval
      let evs := [PollEv.sleep interval, PollEv.poll]
      match r.access_token with
      | some tok =>
        (PollResult.success tok
          ⟨some "oauth2", none, some tok, r.refresh_token,
            some ((now2 : Int) + r.expires_in.getD 3600)⟩, evs)
      | none =>
        let errc := r.error.getD ""
        if errc = "authorization_pending" then
          let next := pollLoop rest interval now2 deadline
          (next.1, evs ++ next.2)
        else if errc = "slow_down" then
          let next := pollLoop rest (interval + 5) now2 deadline
          (next.1, evs ++ next.2)
        else if pyContains (r.error_description.getD "") "AADSTS65001" then
          (PollResult.consentRequired, evs)
        else (PollResult.failed errc (r.error_description.getD ""), evs)
    else (PollResult.timeout, [])

/-- The device-code response fields the loop set-up reads (lines 166–168):
`interval` defaulting to 5 and `expires_in` defaulting to 900. -/
def runDeviceCodePoll (interval expires_in : Option Nat)
    (responses : List TokenResp) (start : Nat) : PollResult × List PollEv :=
  pollLoop responses (interval.getD 5) start (start + expires_in.getD 900)

/-! ## Credential file (`_save` lines 61–74, `clear` lines 76–87,
`save_basic` lines 106–108) -/

/-- A JSON value stored in a credential entry. -/
inductive JVal
  | str (v : String)
  | num (v : Int)
  | nullv
deriving DecidableEq

/-- One account's persisted JSON object. -/
abbrev CredEntry := List (String × JVal)

/-- The backing `credentials.json`: missing, unreadable/unparsable, or a
parsed JSON object keyed by account. -/
inductive FileState
  | absent
  | malformed
  | stored (entries : List (String × CredEntry))
deriving DecidableEq

/-- `clear` (lines 76–87) as a file-state transformer: no file means
nothing to do; an unreadable file is unlinked by the `except` clause; a
parsed file has this account's entry popped, then is rewritten if anything
remains and unlinked otherwise. -/
def clearAccount (acct : String) : FileState → FileState
  | FileState.absent => FileState.absent
  | FileState.malformed => FileState.absent
  | FileState.stored m =>
    let m2 := m.filter (fun p => p.1 != acct)
    if m2.isEmpty then FileState.absent else FileState.stored m2

/-- `_save` (lines 61–74): re-read the whole file (treating a missing or
unparsable file as `{}`), overwrite this account's entry with the
in-memory dict, and write everything back. -/
def saveToFile (acct : String) (entry : CredEntry) : FileState → FileState
  | FileState.absent => FileState.stored [(acct, entry)]
  | FileState.malformed => FileState.stored [(acct, entry)]
  | FileState.stored m => FileState.stored (upsert m acct entry)

/-- The dict `save_basic` installs: `{"auth_type": "basic", "password":
password}` (line 107), replacing the previous in-memory dict wholesale. -/
def basicEntry (pw : String) : CredEntry :=
  [("auth_type", JVal.str "basic"), ("password", JVal.str pw)]

/-- `save_basic` (lines 106–108) as a file-state transformer. -/
def saveBasic (acct pw : String) (fs : FileState) : FileState :=
  saveToFile acct (basicEntry pw) fs

/-! ## The scripted SSO flow (`moodle_sso_refresh.py`, `refresh_token`,
lines 54–205)

The flow is a strict linear sequence of HTTP steps; each step's inputs are
taken from the previous response.  The embedding threads a script holding
the responses each request would receive.  Two standard-library facilities
are abstracted as script-provided parse results, since they live outside
the repository: the `$Config = {...};` regex + JSON load (a page's parsed
configuration, `none` when the regex finds nothing) and the
`token=([A-Za-z0-9+/=_-]+)` regex over the redirect `Location` (the
captured group, `none` when absent).  `urljoin` is modelled as string
concatenation of base and relative part; no claim depends on URL
resolution details. -/

/-- The fields of the `$Config` blob the source reads.  `sFT` is accessed
with `config["sFT"]` (required); the others are read with `.get(..., "")`,
so they carry their defaulted values. -/
structure MsConfig where
  sFT : String
  urlPost : String
  canary : String
  sCtx : String
deriving DecidableEq

/-- One HTML page response: final URL, body text, the parsed `$Config` of
the body (if the regex matches), and the start-tag events of the body for
`FormParser`. -/
structure PageResp where
  url : String
  text : String
  pageConfig : Option MsConfig
  tags : List StartTag

/-- The `GetCredentialType` JSON, as the source reads it:
`cred.get("Credentials", {}).get("FederationRedirectUrl", "")` and
`cred.get("FlowToken", ...)`. -/
structure CredResponse where
  federationRedirectUrl : String
  flowToken : Option String
deriving DecidableEq

/-- Scripted responses for one run of `refresh_token`. -/
structure SsoScript where
  r1 : PageResp
  cred : CredResponse
  r3 : PageResp
  r4 : PageResp
  r5 : PageResp
  r6Status : Nat
  r6TokenParam : Option String

/-- The HTTP requests the flow can issue, with the data relevant to the
claims (in particular, which requests carry the password). -/
inductive Req
  | getLogin
  | getCredentialType (username flowToken : String)
  | submitPassword (username password url flowToken : String)
  | submitKmsi (url : String)
  | submitSaml (action : String) (fields : List (String × String))
  | launch
deriving DecidableEq

/-- Is this request the password submission of step 4? -/
def Req.carriesPassword : Req → Bool
  | Req.submitPassword _ _ _ _ => true
  | _ => false

/-- Terminal outcomes of `refresh_token`: the token, or the `err(...)`
exit taken, one constructor per `err` site, plus the uncaught
`binascii.Error` a malformed base64 payload would raise at line 198. -/
inductive SsoOutcome
  | token (t : String)
  | protocolMismatch
  | parseError
  | federationNotSupported
  | authFailed
  | ssoIncomplete
  | unexpectedResponse (status : Nat)
  | noTokenInRedirect
  | malformedToken
  | decodeException
deriving DecidableEq

/-- `MS_BASE` (line 27). -/
def MS_BASE : String := "https://login.microsoftonline.com"

/-- Simplified `urljoin` (see the section comment). -/
def urljoin (base rel : String) : String := base ++ rel

/-- Resolve a possibly-relative post URL as lines 96–97 and 136–137 do. -/
def resolvePostUrl (u : String) : String :=
  if pyStartsWith u "http" then u else urljoin (MS_BASE ++ "/") u

/-- The tail of the flow from the platform re-entry checkpoint (line 170)
onward: the completion check, the `launch.php` exchange, the redirect
status check, token extraction, padding + base64 decode, and the `:::`
split. -/
def ssoFinish (sc : SsoScript) (url : String) (trace : List Req) :
    SsoOutcome × List Req :=
  if ¬ pyContains url "qmplus.qmul.ac.uk" then (SsoOutcome.ssoIncomplete, trace)
  else
    let trace := trace ++ [Req.launch]
    if ¬ (sc.r6Status = 301 ∨ sc.r6Status = 302 ∨ sc.r6Status = 303) then
      (SsoOutcome.unexpectedResponse sc.r6Status, trace)
    else
      match sc.r6TokenParam with
      | none => (SsoOutcome.noTokenInRedirect, trace)
      | some raw =>
        match b64DecodeList (fixPadding raw).data with
        | none => (SsoOutcome.decodeException, trace)
        | some bs =>
          match parseDecodedToken (bytesToStr bs) with
          | Except.error _ => (SsoOutcome.malformedToken, trace)
          | Except.ok t => (SsoOutcome.token t, trace)

/-- `refresh_token` (lines 54–205) over a script.  Returns the outcome and
the trace of requests issued, in order. -/
def refreshTokenFlow (username password : String) (sc : SsoScript) :
    SsoOutcome × List Req :=
  let trace := [Req.getLogin]
  if ¬ pyContains sc.r1.url "login.microsoftonline.com" then
    (SsoOutcome.protocolMismatch, trace)
  else
    match sc.r1.pageConfig with
    | none => (SsoOutcome.parseError, trace)
    | some config =>
      let trace := trace ++ [Req.getCredentialType username config.sFT]
      if sc.cred.federationRedirectUrl ≠ "" then
        (SsoOutcome.federationNotSupported, trace)
      else
        let flowToken := sc.cred.flowToken.getD config.sFT
        let postUrl := resolvePostUrl config.urlPost
        let trace := trace ++ [Req.submitPassword username password postUrl flowToken]
        if pyContains sc.r3.text "AADSTS" then (SsoOutcome.authFailed, trace)
        else
          -- Step 5: the "stay signed in" interrupt.
          let afterKmsi :=
            if pyContains sc.r3.text "KmsiInterrupt" || pyContains sc.r3.text "StaySignedIn" then
              match sc.r3.pageConfig with
              | some c2 =>
                (sc.r4, sc.r4.url, trace ++ [Req.submitKmsi (resolvePostUrl c2.urlPost)])
              | none => (sc.r3, sc.r3.url, trace)
            else (sc.r3, sc.r3.url, trace)
          let pg := afterKmsi.1
          let curUrl := afterKmsi.2.1
          let trace := afterKmsi.2.2
          -- Step 6: the optional auto-submitting SAML POST form.
          let afterSaml :=
            if pyContains pg.text "SAMLResponse" then
              let fp := feedForm pg.tags
              match fp.action with
              | some a =>
                if a ≠ "" ∧ (dgetOpt fp.fields "SAMLResponse").isSome then
                  let action := if pyStartsWith a "http" then a else urljoin curUrl a
                  (sc.r5.url, trace ++ [Req.submitSaml action fp.fields])
                else (curUrl, trace)
              | none => (curUrl, trace)
            else (curUrl, trace)
          ssoFinish sc afterSaml.1 afterSaml.2

/-- Host part of a URL: the text between `"://"` and the next `"/"`. -/
def urlHost (u : String) : String :=
  match pySplit u "://" with
  | _ :: afterScheme :: _ => ((pySplit afterScheme "/").headD "")
  | _ => ""

/-! ## Claim C1 — FormParser and sibling POST forms -/

/-- Start-tag stream of two sibling POST forms: the first carries a hidden
`csrf` field, the second only a hidden `SAMLResponse` field. -/
def twoFormEvents : List StartTag :=
  [formPostTag "/first", hiddenInputTag "csrf" "abc",
   formPostTag "/second", hiddenInputTag "SAMLResponse" "resp"]

/-- C1 (counterexample): the claim says opening a new POST form resets the
tracked hidden-field set, so with two sibling POST forms the extraction
holds only the second form's fields.  On `twoFormEvents` the source keeps
the first form's hidden `csrf` field alongside the second form's
`SAMLResponse`, so the extracted field set is not
`[("SAMLResponse", "resp")]`. -/
theorem c1_counterexample :
    feedForm twoFormEvents =
      ⟨some "/second", [("csrf", "abc"), ("SAMLResponse", "resp")]⟩ ∧
    (feedForm twoFormEvents).fields ≠ [("SAMLResponse", "resp")] ∧
    dgetOpt (feedForm twoFormEvents).fields "csrf" = some "abc" := by
  decide

/-- C1 (amended): opening a new POST form overwrites the tracked action but
never resets the tracked hidden-field set — a `form` start tag leaves
`fields` unchanged, so hidden fields accumulate across sibling forms; in
particular, when the earlier POST form contributes no hidden fields and
only the second form has a hidden `SAMLResponse` field, extraction returns
exactly the second form's action and fields. -/
theorem c1_amended :
    (∀ (st : FormParserState) (attrs : List (String × String)),
      (handleStartTag st ⟨"form", attrs⟩).fields = st.fields) ∧
    (∀ a1 a2 v : String,
      feedForm [formPostTag a1, formPostTag a2, hiddenInputTag "SAMLResponse" v] =
        ⟨some a2, [("SAMLResponse", v)]⟩) := by
  constructor
  · intro st attrs
    simp only [handleStartTag]
    have h2 : ¬ (("form" : String) = "input" ∧ dgetOpt attrs "type" = some "hidden") := by
      intro h
      exact absurd h.1 (by decide)
    rw [if_neg h2]
    split <;> rfl
  · intro a1 a2 v
    rfl

/-- C1 (witness): the amended statement at a concrete input. -/
theorem c1_witness :
    (handleStartTag ⟨none, [("k", "v")]⟩ ⟨"form", [("method", "post")]⟩).fields =
      [("k", "v")] ∧
    feedForm [formPostTag "/x", formPostTag "/y", hiddenInputTag "SAMLResponse" "z"] =
      ⟨some "/y", [("SAMLResponse", "z")]⟩ :=
  ⟨c1_amended.1 ⟨none, [("k", "v")]⟩ [("method", "post")],
   c1_amended.2 "/x" "/y" "z"⟩

/-! ## Claim C2 — device-code poll cycles -/

/-- A scripted `authorization_pending` token response. -/
def pendingResp : TokenResp := ⟨none, none, none, some "authorization_pending", none⟩

/-- A scripted successful token response. -/
def successResp : TokenResp := ⟨some "tok123", some "refresh456", some 3600, none, none⟩

/-- C2: on the scripted sequence [pending, pending, success] the loop runs
exactly two sleep-then-poll cycles that come back `authorization_pending`
before the cycle whose poll returns the access token; the full event trace
is three sleeps of the unchanged 5-second interval, each followed by one
token request, and the loop returns the scripted access token (storing the
oauth2 credential set computed at the third poll, clock 15). -/
theorem c2_poll_two_pending_cycles :
    runDeviceCodePoll (some 5) (some 900) [pendingResp, pendingResp, successResp] 0 =
      (PollResult.success "tok123"
        ⟨some "oauth2", none, some "tok123", some "refresh456", some 3615⟩,
       [PollEv.sleep 5, PollEv.poll, PollEv.sleep 5, PollEv.poll,
        PollEv.sleep 5, PollEv.poll]) := by
  decide

/-! ## Claim C3 — refresh margin boundary -/

/-- C3: for an oauth2 credential, `expires_at = now + 300` is treated as
expired (`get_access_token` falls through to a refresh attempt and
`is_token_expired` answers true), while `expires_at = now + 301` is valid
(the cached access token is returned unchanged and `is_token_expired`
answers false). -/
theorem c3_margin_boundary (now : Int) (tok rt : String) :
    getAccessTokenStep ⟨some "oauth2", none, some tok, some rt, some (now + 300)⟩ now =
      AccessTokenStep.refreshAttempt ∧
    isTokenExpired ⟨some "oauth2", none, some tok, some rt, some (now + 300)⟩ now = true ∧
    getAccessTokenStep ⟨some "oauth2", none, some tok, some rt, some (now + 301)⟩ now =
      AccessTokenStep.cached (some tok) ∧
    isTokenExpired ⟨some "oauth2", none, some tok, some rt, some (now + 301)⟩ now = false := by
  refine ⟨?_, ?_, ?_, ?_⟩ <;>
    simp [getAccessTokenStep, isTokenExpired, TOKEN_EXPIRY_MARGIN]

/-- C3 (witness): the boundary at a concrete clock. -/
theorem c3_witness :
    getAccessTokenStep ⟨some "oauth2", none, some "a", some "r", some 1300⟩ 1000 =
      AccessTokenStep.refreshAttempt ∧
    isTokenExpired ⟨some "oauth2", none, some "a", some "r", some 1300⟩ 1000 = true ∧
    getAccessTokenStep ⟨some "oauth2", none, some "a", some "r", some 1301⟩ 1000 =
      AccessTokenStep.cached (some "a") ∧
    isTokenExpired ⟨some "oauth2", none, some "a", some "r", some 1301⟩ 1000 = false :=
  c3_margin_boundary 1000 "a" "r"

/-! ## Claim C4 — the `:::` token split -/

/-- C4: splitting the decoded text on `":::"` yields the malformed-token
failure when there are fewer than two parts and the second part otherwise:
`"P:::T"` gives `T`, `"P:::T:::PT"` gives `T`, `"P"` fails. -/
theorem c4_token_split :
    parseDecodedToken "P:::T" = Except.ok "T" ∧
    parseDecodedToken "P:::T:::PT" = Except.ok "T" ∧
    parseDecodedToken "P" = Except.error "Unexpected token format: P" ∧
    (∀ s : String, (pySplit s ":::").length < 2 →
      parseDecodedToken s = Except.error ("Unexpected token format: " ++ pyTake s 50)) ∧
    (∀ (s p t : String) (rest : List String), pySplit s ":::" = p :: t :: rest →
      parseDecodedToken s = Except.ok t) := by
  refine ⟨by rfl, by rfl, by rfl, ?_, ?_⟩
  · intro s hlen
    unfold parseDecodedToken
    rcases hsplit : pySplit s ":::" with _ | ⟨x, _ | ⟨y, r⟩⟩
    · rfl
    · rfl
    · rw [hsplit] at hlen
      simp only [List.length_cons] at hlen
      omega
  · intro s p t rest h
    unfold parseDecodedToken
    rw [h]

/-- C4 (witness): the general split law applied at a concrete input. -/
theorem c4_witness : parseDecodedToken "X:::Y" = Except.ok "Y" :=
  c4_token_split.2.2.2.2 "X:::Y" "X" "Y" [] (by decide)

/-! ## Claim C5 — refresh failure is non-fatal -/

/-- C5: whatever the stored credential, a failing refresh request — a
transport error or any HTTP status `raise_for_status` raises for (4xx/5xx,
which is how the token endpoint signals every failure) — makes
`_refresh_token` return `None` with the credential unchanged, not raise. -/
theorem c5_refresh_failure_returns_none (c : StoredCreds) (r : HttpResult) (now : Int)
    (hfail : r = HttpResult.netErr ∨
      ∃ st b, r = HttpResult.resp st b ∧ 400 ≤ st ∧ st < 600) :
    refreshTokenStep c r now = Except.ok (none, c) := by
  rcases hfail with rfl | ⟨st, b, rfl, h1, h2⟩
  · simp [refreshTokenStep]
  · simp only [refreshTokenStep]
    split_ifs with hre hrange
    · rfl
    · rfl
    · exact absurd ⟨h1, h2⟩ hrange

/-- C5 (witness): a concrete 400 response leaves a concrete credential
untouched and returns the absence signal. -/
theorem c5_witness :
    refreshTokenStep ⟨some "oauth2", none, some "a", some "r", some 0⟩
      (HttpResult.resp 400 none) 0 =
      Except.ok (none, ⟨some "oauth2", none, some "a", some "r", some 0⟩) :=
  c5_refresh_failure_returns_none ⟨some "oauth2", none, some "a", some "r", some 0⟩
    (HttpResult.resp 400 none) 0 (Or.inr ⟨400, none, rfl, by omega, by omega⟩)

/-! ## Claim C6 — federation redirect stops the flow before the password -/

/-- C6: in any run reaching the credential-type discovery step whose
response carries a non-empty federation-redirect URL, the flow terminates
with the federation-not-supported failure and its request trace consists of
the initial GET and the discovery request only — in particular no request
carrying the password is ever issued. -/
theorem c6_federation_no_password (u p : String) (sc : SsoScript) (cfg : MsConfig)
    (h1 : pyContains sc.r1.url "login.microsoftonline.com" = true)
    (h2 : sc.r1.pageConfig = some cfg)
    (h3 : sc.cred.federationRedirectUrl ≠ "") :
    refreshTokenFlow u p sc =
      (SsoOutcome.federationNotSupported,
       [Req.getLogin, Req.getCredentialType u cfg.sFT]) ∧
    ∀ r ∈ (refreshTokenFlow u p sc).2, r.carriesPassword = false := by
  have hmain : refreshTokenFlow u p sc =
      (SsoOutcome.federationNotSupported,
       [Req.getLogin, Req.getCredentialType u cfg.sFT]) := by
    simp [refreshTokenFlow, h1, h2, h3]
  refine ⟨hmain, ?_⟩
  rw [hmain]
  intro r hr
  rcases List.mem_cons.mp hr with rfl | hr2
  · rfl
  · rcases List.mem_singleton.mp hr2 with rfl
    rfl

/-- Federation-redirect script used to witness the C6 theorem. -/
def fedScript : SsoScript :=
  ⟨⟨"https://login.microsoftonline.com/auth", "", some ⟨"FT0", "", "", ""⟩, []⟩,
   ⟨"https://adfs.example/login", none⟩,
   ⟨"", "", none, []⟩, ⟨"", "", none, []⟩, ⟨"", "", none, []⟩,
   302, none⟩

/-- C6 (witness): the theorem at a concrete federated script. -/
theorem c6_witness :
    refreshTokenFlow "user@example.org" "hunter2" fedScript =
      (SsoOutcome.federationNotSupported,
       [Req.getLogin, Req.getCredentialType "user@example.org" "FT0"]) ∧
    ∀ r ∈ (refreshTokenFlow "user@example.org" "hunter2" fedScript).2,
      r.carriesPassword = false :=
  c6_federation_no_password "user@example.org" "hunter2" fedScript
    ⟨"FT0", "", "", ""⟩ (by decide) rfl (by decide)

/-! ## Claim C7 — the platform re-entry checkpoint -/

/-- Script whose password-submission response lands on a URL whose host is
`evil.example` but whose path contains the platform name as a substring. -/
def scEvil : SsoScript :=
  ⟨⟨"https://login.microsoftonline.com/x", "", some ⟨"FT1", "/ppsecure/post.srf", "", ""⟩, []⟩,
   ⟨"", none⟩,
   ⟨"https://evil.example/qmplus.qmul.ac.uk", "welcome", none, []⟩,
   ⟨"", "", none, []⟩, ⟨"", "", none, []⟩,
   302, none⟩

/-- C7 (counterexample): the claim says the flow aborts with
`SSOIncomplete` for every final URL whose host is not
`qmplus.qmul.ac.uk`.  The source only checks substring containment in the
whole URL, so on `scEvil` — final URL host `evil.example`, platform name
only in the path — the flow does not abort at the checkpoint and issues
the token-exchange request. -/
theorem c7_counterexample :
    urlHost "https://evil.example/qmplus.qmul.ac.uk" = "evil.example" ∧
    urlHost "https://evil.example/qmplus.qmul.ac.uk" ≠ "qmplus.qmul.ac.uk" ∧
    (refreshTokenFlow "user" "pw" scEvil).1 ≠ SsoOutcome.ssoIncomplete ∧
    Req.launch ∈ (refreshTokenFlow "user" "pw" scEvil).2 := by
  decide

/-- C7 (amended): at the platform re-entry checkpoint the source tests
substring containment of `"qmplus.qmul.ac.uk"` in the whole current URL,
not a host comparison: on the straight-line path (no auth error, no
"stay signed in" interrupt, no SAML form) the flow fails with
`SSOIncomplete` exactly when the final URL does not contain that substring
(and then never issues the token-exchange request), and proceeds to the
token-exchange request whenever the substring occurs anywhere in the URL. -/
theorem c7_amended (u p : String) (sc : SsoScript) (cfg : MsConfig)
    (h1 : pyContains sc.r1.url "login.microsoftonline.com" = true)
    (h2 : sc.r1.pageConfig = some cfg)
    (h3 : sc.cred.federationRedirectUrl = "")
    (h4 : pyContains sc.r3.text "AADSTS" = false)
    (h5 : pyContains sc.r3.text "KmsiInterrupt" = false)
    (h6 : pyContains sc.r3.text "StaySignedIn" = false)
    (h7 : pyContains sc.r3.text "SAMLResponse" = false) :
    (pyContains sc.r3.url "qmplus.qmul.ac.uk" = false →
      refreshTokenFlow u p sc =
        (SsoOutcome.ssoIncomplete,
         [Req.getLogin, Req.getCredentialType u cfg.sFT,
          Req.submitPassword u p (resolvePostUrl cfg.urlPost)
            (sc.cred.flowToken.getD cfg.sFT)]) ∧
      Req.launch ∉ (refreshTokenFlow u p sc).2) ∧
    (pyContains sc.r3.url "qmplus.qmul.ac.uk" = true →
      Req.launch ∈ (refreshTokenFlow u p sc).2) := by
  have hflow : refreshTokenFlow u p sc =
      ssoFinish sc sc.r3.url
        [Req.getLogin, Req.getCredentialType u cfg.sFT,
         Req.submitPassword u p (resolvePostUrl cfg.urlPost)
           (sc.cred.flowToken.getD cfg.sFT)] := by
    simp [refreshTokenFlow, h1, h2, h3, h4, h5, h6, h7]
  constructor
  · intro hq
    have habort : refreshTokenFlow u p sc =
        (SsoOutcome.ssoIncomplete,
         [Req.getLogin, Req.getCredentialType u cfg.sFT,
          Req.submitPassword u p (resolvePostUrl cfg.urlPost)
            (sc.cred.flowToken.getD cfg.sFT)]) := by
      rw [hflow]
      simp [ssoFinish, hq]
    refine ⟨habort, ?_⟩
    rw [habort]
    intro hmem
    rcases List.mem_cons.mp hmem with h | h
    · exact Req.noConfusion h
    · rcases List.mem_cons.mp h with h' | h'
      · exact Req.noConfusion h'
      · rcases List.mem_cons.mp h' with h'' | h''
        · exact Req.noConfusion h''
        · exact absurd h'' (List.not_mem_nil _)
  · intro hq
    rw [hflow]
    unfold ssoFinish
    rw [hq, if_neg (show ¬ ¬ (true = true) by simp)]
    split
    · simp
    · split
      · simp
      · split
        · simp
        · split <;> simp

/-- Straight-line script that ends away from the platform (no
`qmplus.qmul.ac.uk` substring in the final URL), used to witness the
amended C7 theorem. -/
def scAbort : SsoScript :=
  ⟨⟨"https://login.microsoftonline.com/x", "", some ⟨"FT2", "/post", "", ""⟩, []⟩,
   ⟨"", none⟩,
   ⟨"https://login.microsoftonline.com/stuck", "welcome", none, []⟩,
   ⟨"", "", none, []⟩, ⟨"", "", none, []⟩,
   302, none⟩

/-- C7 (witness): the amended theorem at a concrete aborting script. -/
theorem c7_witness :
    refreshTokenFlow "u@x" "pw" scAbort =
      (SsoOutcome.ssoIncomplete,
       [Req.getLogin, Req.getCredentialType "u@x" "FT2",
        Req.submitPassword "u@x" "pw" (resolvePostUrl "/post") "FT2"]) ∧
    Req.launch ∉ (refreshTokenFlow "u@x" "pw" scAbort).2 :=
  (c7_amended "u@x" "pw" scAbort ⟨"FT2", "/post", "", ""⟩
    (by decide) rfl rfl (by decide) (by decide) (by decide) (by decide)).1 (by decide)


/-! ## Claim C8 — clear removes exactly one account -/

/-- Python `d.get(k)` on a parsed JSON object (unique keys). -/
def pyGet {β : Type} : List (String × β) → String → Option β
  | [], _ => none
  | p :: rest, k => if p.1 = k then some p.2 else pyGet rest k

/-- C8: on a parsed credential file, `clear(account)` leaves exactly the
other accounts' entries: the file is rewritten with the remaining entry
list when it is non-empty and deleted when it is empty; the cleared
account no longer resolves, and every other account resolves to its
unchanged entry. -/
theorem c8_clear_isolation (acct : String) (m : List (String × CredEntry)) :
    (clearAccount acct (FileState.stored m) =
      if (m.filter (fun p => p.1 != acct)).isEmpty then FileState.absent
      else FileState.stored (m.filter (fun p => p.1 != acct))) ∧
    pyGet (m.filter (fun p => p.1 != acct)) acct = none ∧
    (∀ b, b ≠ acct → pyGet (m.filter (fun p => p.1 != acct)) b = pyGet m b) := by
  refine ⟨rfl, ?_, ?_⟩
  · induction m with
    | nil => rfl
    | cons pq rest ih =>
      obtain ⟨k, v⟩ := pq
      by_cases h : k = acct
      · simp [List.filter_cons, h, ih]
      · simp [List.filter_cons, h, pyGet, ih]
  · intro b hb
    induction m with
    | nil => rfl
    | cons pq rest ih =>
      obtain ⟨k, v⟩ := pq
      by_cases h : k = acct
      · have hab : acct ≠ b := fun e => hb e.symm
        simp [List.filter_cons, h, pyGet, hab, ih]
      · by_cases hkb : k = b <;> simp [List.filter_cons, h, pyGet, hkb, hb, ih]

/-- C8 (witness): clearing account `A` from a two-account file keeps `B`'s
entry untouched; clearing the only account deletes the file. -/
theorem c8_witness :
    clearAccount "A" (FileState.stored [("A", basicEntry "x"), ("B", basicEntry "y")]) =
      FileState.stored [("B", basicEntry "y")] ∧
    pyGet ([("A", basicEntry "x"), ("B", basicEntry "y")].filter (fun p => p.1 != "A")) "B" =
      pyGet [("A", basicEntry "x"), ("B", basicEntry "y")] "B" ∧
    clearAccount "B" (FileState.stored [("B", basicEntry "y")]) = FileState.absent := by
  refine ⟨?_, (c8_clear_isolation "A" [("A", basicEntry "x"), ("B", basicEntry "y")]).2.2 "B" (by decide), by decide⟩
  have h := (c8_clear_isolation "A" [("A", basicEntry "x"), ("B", basicEntry "y")]).1
  rw [h]
  decide

/-! ## Claim C10 — save_basic replaces the whole entry -/

/-- Upserting a key makes it resolve to the new value. -/
theorem pyGet_upsert_self {β : Type} (k : String) (v : β) :
    ∀ m : List (String × β), pyGet (upsert m k v) k = some v := by
  intro m
  induction m with
  | nil => simp [upsert, pyGet]
  | cons p rest ih =>
    by_cases h : p.1 = k
    · simp [upsert, h, pyGet]
    · simp [upsert, h, pyGet, ih]

/-- C10: saving a basic credential stores, for that account, exactly the
two-field dict `{"auth_type": "basic", "password": pw}` — whatever was
stored before (in particular any oauth2 fields) is discarded: after the
save the account resolves to `basicEntry pw`, which carries no
`access_token`, `refresh_token` or `expires_at` key. -/
theorem c10_save_basic_replaces (fs : FileState) (acct pw : String) :
    (∃ m, saveBasic acct pw fs = FileState.stored m ∧
      pyGet m acct = some (basicEntry pw)) ∧
    basicEntry pw = [("auth_type", JVal.str "basic"), ("password", JVal.str pw)] ∧
    pyGet (basicEntry pw) "access_token" = none ∧
    pyGet (basicEntry pw) "refresh_token" = none ∧
    pyGet (basicEntry pw) "expires_at" = none := by
  refine ⟨?_, rfl, rfl, rfl, rfl⟩
  cases fs with
  | absent => exact ⟨[(acct, basicEntry pw)], rfl, by simp [pyGet]⟩
  | malformed => exact ⟨[(acct, basicEntry pw)], rfl, by simp [pyGet]⟩
  | stored m =>
    exact ⟨upsert m acct (basicEntry pw), rfl, pyGet_upsert_self acct (basicEntry pw) m⟩

/-- C10 (witness): saving a basic credential over a stored oauth2
credential leaves the account with exactly the basic entry. -/
theorem c10_witness :
    (∃ m, saveBasic "A" "pw" (FileState.stored
        [("A", [("auth_type", JVal.str "oauth2"), ("access_token", JVal.str "t"),
                ("refresh_token", JVal.str "r"), ("expires_at", JVal.num 99)])]) =
      FileState.stored m ∧ pyGet m "A" = some (basicEntry "pw")) ∧
    basicEntry "pw" = [("auth_type", JVal.str "basic"), ("password", JVal.str "pw")] ∧
    pyGet (basicEntry "pw") "access_token" = none ∧
    pyGet (basicEntry "pw") "refresh_token" = none ∧
    pyGet (basicEntry "pw") "expires_at" = none :=
  c10_save_basic_replaces
    (FileState.stored
      [("A", [("auth_type", JVal.str "oauth2"), ("access_token", JVal.str "t"),
              ("refresh_token", JVal.str "r"), ("expires_at", JVal.num 99)])]) "A" "pw"

/-! ## Claim C9 — padding restoration and the base64 round trip -/

/-- Every alphabet index decodes back to itself. -/
theorem b64Val_b64Char : ∀ n, n < 64 → b64Val (b64Char n) = some n := by
  decide

/-- Alphabet characters are never the padding character. -/
theorem b64Char_ne_pad : ∀ n, n < 64 → b64Char n ≠ '=' := by
  decide

/-- Decoding a final two-padding block. -/
theorem b64DecodeList_two_pad (v1 v2 : Nat) (h1 : v1 < 64) (h2 : v2 < 64) :
    b64DecodeList [b64Char v1, b64Char v2, '=', '='] = some [v1 * 4 + v2 / 16] := by
  simp [b64DecodeList, b64Val_b64Char _ h1, b64Val_b64Char _ h2]

/-- Decoding a final one-padding block. -/
theorem b64DecodeList_one_pad (v1 v2 v3 : Nat)
    (h1 : v1 < 64) (h2 : v2 < 64) (h3 : v3 < 64) :
    b64DecodeList [b64Char v1, b64Char v2, b64Char v3, '='] =
      some [v1 * 4 + v2 / 16, v2 % 16 * 16 + v3 / 4] := by
  simp [b64DecodeList, b64Val_b64Char _ h1, b64Val_b64Char _ h2, b64Val_b64Char _ h3,
    b64Char_ne_pad _ h3]

/-- Decoding a full block followed by more input. -/
theorem b64DecodeList_full (v1 v2 v3 v4 : Nat) (rest : List Char)
    (h1 : v1 < 64) (h2 : v2 < 64) (h3 : v3 < 64) (h4 : v4 < 64) :
    b64DecodeList (b64Char v1 :: b64Char v2 :: b64Char v3 :: b64Char v4 :: rest) =
      (b64DecodeList rest).map
        (fun bs => (v1 * 4 + v2 / 16) :: (v2 % 16 * 16 + v3 / 4) :: (v3 % 4 * 64 + v4) :: bs) := by
  simp [b64DecodeList, b64Val_b64Char _ h1, b64Val_b64Char _ h2, b64Val_b64Char _ h3,
    b64Val_b64Char _ h4, b64Char_ne_pad _ h3, b64Char_ne_pad _ h4]

/-- Encoded output comes in whole 4-character blocks. -/
theorem b64EncodeList_length_mod (bs : List Nat) : (b64EncodeList bs).length % 4 = 0 := by
  suffices h : ∀ (n : Nat) (l : List Nat), l.length ≤ n → (b64EncodeList l).length % 4 = 0 by
    exact h bs.length bs le_rfl
  intro n
  induction n with
  | zero =>
    intro l hl
    have : l = [] := List.length_eq_zero.mp (Nat.le_zero.mp hl)
    subst this
    rfl
  | succ n ih =>
    intro l hl
    rcases l with _ | ⟨a, _ | ⟨b, _ | ⟨c, rest⟩⟩⟩
    · rfl
    · simp [b64EncodeList]
    · simp [b64EncodeList]
    · have hr : rest.length ≤ n := by
        simp only [List.length_cons] at hl
        omega
      have hrec := ih rest hr
      simp only [b64EncodeList, List.length_cons]
      omega

/-- Decoding inverts encoding on byte lists. -/
theorem b64_decode_encode (bs : List Nat) (hb : ∀ x ∈ bs, x < 256) :
    b64DecodeList (b64EncodeList bs) = some bs := by
  suffices h : ∀ (n : Nat) (l : List Nat), l.length ≤ n → (∀ x ∈ l, x < 256) →
      b64DecodeList (b64EncodeList l) = some l by
    exact h bs.length bs le_rfl hb
  intro n
  induction n with
  | zero =>
    intro l hl _
    have : l = [] := List.length_eq_zero.mp (Nat.le_zero.mp hl)
    subst this
    rfl
  | succ n ih =>
    intro l hl hx
    rcases l with _ | ⟨a, _ | ⟨b, _ | ⟨c, rest⟩⟩⟩
    · rfl
    · have ha : a < 256 := hx a (by simp)
      show b64DecodeList [b64Char (a / 4), b64Char (a % 4 * 16), '=', '='] = some [a]
      rw [b64DecodeList_two_pad (a / 4) (a % 4 * 16) (by omega) (by omega)]
      have e1 : a / 4 * 4 + a % 4 * 16 / 16 = a := by omega
      rw [e1]
    · have ha : a < 256 := hx a (by simp)
      have hbb : b < 256 := hx b (by simp)
      show b64DecodeList [b64Char (a / 4), b64Char (a % 4 * 16 + b / 16),
          b64Char (b % 16 * 4), '='] = some [a, b]
      rw [b64DecodeList_one_pad (a / 4) (a % 4 * 16 + b / 16) (b % 16 * 4)
        (by omega) (by omega) (by omega)]
      have e1 : a / 4 * 4 + (a % 4 * 16 + b / 16) / 16 = a := by omega
      have e2 : (a % 4 * 16 + b / 16) % 16 * 16 + b % 16 * 4 / 4 = b := by omega
      rw [e1, e2]
    · have ha : a < 256 := hx a (by simp)
      have hbb : b < 256 := hx b (by simp)
      have hc : c < 256 := hx c (by simp)
      have hr : rest.length ≤ n := by
        simp only [List.length_cons] at hl
        omega
      have hrx : ∀ x ∈ rest, x < 256 := fun x hm => hx x (by simp [hm])
      show b64DecodeList (b64Char (a / 4) :: b64Char (a % 4 * 16 + b / 16) ::
          b64Char (b % 16 * 4 + c / 64) :: b64Char (c % 64) :: b64EncodeList rest) =
        some (a :: b :: c :: rest)
      rw [b64DecodeList_full (a / 4) (a % 4 * 16 + b / 16) (b % 16 * 4 + c / 64) (c % 64)
        (b64EncodeList rest) (by omega) (by omega) (by omega) (by omega),
        ih rest hr hrx]
      simp only [Option.map_some']
      congr 1
      have e1 : a / 4 * 4 + (a % 4 * 16 + b / 16) / 16 = a := by omega
      have e2 : (a % 4 * 16 + b / 16) % 16 * 16 + (b % 16 * 4 + c / 64) / 4 = b := by omega
      have e3 : (b % 16 * 4 + c / 64) % 4 * 64 + c % 64 = c := by omega
      rw [e1, e2, e3]

/-- An all-`'='` suffix of an encoded stream has at most the two padding
characters. -/
theorem b64_pad_suffix (bs : List Nat) (hb : ∀ x ∈ bs, x < 256)
    (sl tl : List Char) (hsplit : b64EncodeList bs = sl ++ tl)
    (hpad : ∀ c ∈ tl, c = '=') : tl.length ≤ 2 := by
  suffices h : ∀ (n : Nat) (l : List Nat), l.length ≤ n → (∀ x ∈ l, x < 256) →
      ∀ sl tl, b64EncodeList l = sl ++ tl → (∀ c ∈ tl, c = '=') → tl.length ≤ 2 by
    exact h bs.length bs le_rfl hb sl tl hsplit hpad
  intro n
  induction n with
  | zero =>
    intro l hl _ sl tl hs hp
    have : l = [] := List.length_eq_zero.mp (Nat.le_zero.mp hl)
    subst this
    have := List.append_eq_nil.mp hs.symm
    simp [this.2]
  | succ n ih =>
    intro l hl hx sl tl hs hp
    rcases l with _ | ⟨a, _ | ⟨b, _ | ⟨c, rest⟩⟩⟩
    · have := List.append_eq_nil.mp hs.symm
      simp [this.2]
    · have ha : a < 256 := hx a (by simp)
      simp only [b64EncodeList] at hs
      rcases sl with _ | ⟨s1, _ | ⟨s2, sl'⟩⟩
      · exact absurd (hp (b64Char (a / 4)) (by rw [List.nil_append] at hs; rw [← hs]; simp))
          (b64Char_ne_pad (a / 4) (by omega))
      · simp only [List.cons_append, List.nil_append, List.cons.injEq] at hs
        exact absurd (hp (b64Char (a % 4 * 16)) (by rw [← hs.2]; simp))
          (b64Char_ne_pad (a % 4 * 16) (by omega))
      · simp only [List.cons_append, List.nil_append, List.cons.injEq] at hs
        have hlen := congrArg List.length hs.2.2
        simp only [List.length_append, List.length_cons, List.length_nil] at hlen
        omega
    · have ha : a < 256 := hx a (by simp)
      have hbb : b < 256 := hx b (by simp)
      simp only [b64EncodeList] at hs
      rcases sl with _ | ⟨s1, _ | ⟨s2, sl'⟩⟩
      · exact absurd (hp (b64Char (a / 4)) (by rw [List.nil_append] at hs; rw [← hs]; simp))
          (b64Char_ne_pad (a / 4) (by omega))
      · simp only [List.cons_append, List.nil_append, List.cons.injEq] at hs
        exact absurd (hp (b64Char (a % 4 * 16 + b / 16)) (by rw [← hs.2]; simp))
          (b64Char_ne_pad (a % 4 * 16 + b / 16) (by omega))
      · simp only [List.cons_append, List.nil_append, List.cons.injEq] at hs
        have hlen := congrArg List.length hs.2.2
        simp only [List.length_append, List.length_cons, List.length_nil] at hlen
        omega
    · have ha : a < 256 := hx a (by simp)
      have hbb : b < 256 := hx b (by simp)
      have hc : c < 256 := hx c (by simp)
      simp only [b64EncodeList] at hs
      rcases sl with _ | ⟨s1, _ | ⟨s2, _ | ⟨s3, _ | ⟨s4, sl'⟩⟩⟩⟩
      · exact absurd (hp (b64Char (a / 4)) (by rw [List.nil_append] at hs; rw [← hs]; simp))
          (b64Char_ne_pad (a / 4) (by omega))
      · simp only [List.cons_append, List.nil_append, List.cons.injEq] at hs
        exact absurd (hp (b64Char (a % 4 * 16 + b / 16)) (by rw [← hs.2]; simp))
          (b64Char_ne_pad (a % 4 * 16 + b / 16) (by omega))
      · simp only [List.cons_append, List.nil_append, List.cons.injEq] at hs
        exact absurd (hp (b64Char (b % 16 * 4 + c / 64)) (by rw [← hs.2.2]; simp))
          (b64Char_ne_pad (b % 16 * 4 + c / 64) (by omega))
      · simp only [List.cons_append, List.nil_append, List.cons.injEq] at hs
        exact absurd (hp (b64Char (c % 64)) (by rw [← hs.2.2.2]; simp))
          (b64Char_ne_pad (c % 64) (by omega))
      · simp only [List.cons_append, List.nil_append, List.cons.injEq] at hs
        have hr : rest.length ≤ n := by
          simp only [List.length_cons] at hl
          omega
        have hrx : ∀ x ∈ rest, x < 256 := fun x hm => hx x (by simp [hm])
        exact ih rest hr hrx sl' tl hs.2.2.2.2 hp

/-- Stripping an all-`'='` suffix from an encoded stream and re-appending
`'='` up to a multiple of four restores a decodable stream that decodes to
the original bytes. -/
theorem b64_strip_roundtrip (bs : List Nat) (hb : ∀ x ∈ bs, x < 256)
    (sl tl : List Char) (hsplit : b64EncodeList bs = sl ++ tl)
    (hpad : ∀ c ∈ tl, c = '=') :
    b64DecodeList (sl ++ List.replicate ((4 - sl.length % 4) % 4) '=') = some bs := by
  have hlen4 := b64EncodeList_length_mod bs
  have htl := b64_pad_suffix bs hb sl tl hsplit hpad
  have hlen : sl.length + tl.length = (b64EncodeList bs).length := by
    rw [hsplit, List.length_append]
  rcases tl with _ | ⟨c1, _ | ⟨c2, tl'⟩⟩
  · have hsl : sl = b64EncodeList bs := by rw [hsplit, List.append_nil]
    have h0 : sl.length % 4 = 0 := by
      rw [hsl]
      exact hlen4
    rw [h0]
    have hrep : (4 - 0) % 4 = 0 := by norm_num
    rw [hrep, List.replicate_zero, List.append_nil, hsl]
    exact b64_decode_encode bs hb
  · have hc1 : c1 = '=' := hpad c1 (by simp)
    subst hc1
    have h3 : sl.length % 4 = 3 := by
      simp only [List.length_cons, List.length_nil] at hlen
      omega
    rw [h3]
    have hrep : (4 - 3) % 4 = 1 := by norm_num
    rw [hrep, List.replicate_one, ← hsplit]
    exact b64_decode_encode bs hb
  · have htl' : tl' = [] := by
      simp only [List.length_cons] at htl
      exact List.length_eq_zero.mp (by omega)
    subst htl'
    have hc1 : c1 = '=' := hpad c1 (by simp)
    have hc2 : c2 = '=' := hpad c2 (by simp)
    subst hc1
    subst hc2
    have h2 : sl.length % 4 = 2 := by
      simp only [List.length_cons, List.length_nil] at hlen
      omega
    rw [h2]
    have hrep : (4 - 2) % 4 = 2 := by norm_num
    rw [hrep]
    have hrep2 : List.replicate 2 '=' = ['=', '='] := rfl
    rw [hrep2, ← hsplit]
    exact b64_decode_encode bs hb

/-- The padding restoration in closed form: append `'='` characters up to
the next multiple of four (none when already there). -/
theorem fixPadding_eq (raw : String) :
    fixPadding raw = raw ++ String.mk (List.replicate ((4 - raw.length % 4) % 4) '=') := by
  simp only [fixPadding]
  by_cases h : 4 - raw.length % 4 = 4
  · rw [if_neg (by omega)]
    have h0 : (4 - raw.length % 4) % 4 = 0 := by omega
    rw [h0, List.replicate_zero]
    cases raw with
    | mk l =>
      have : String.mk l ++ String.mk [] = String.mk (l ++ []) := rfl
      rw [this, List.append_nil]
  · rw [if_pos h]
    have heq : (4 - raw.length % 4) % 4 = 4 - raw.length % 4 := by
      have hm : raw.length % 4 < 4 := Nat.mod_lt _ (by norm_num)
      omega
    rw [heq]

/-- C9: the padding-restoration step appends exactly enough `'='` to reach
a multiple of four (none when already there), and for every byte payload,
stripping any all-`'='` suffix from its base64 encoding and then restoring
padding and decoding recovers the payload — the round trip of the claim,
covering suffixes of 0, 1 or 2 `'='` (a valid encoding has no longer
`'='` suffix to strip, so stripping 3 is vacuous). -/
theorem c9_padding_roundtrip :
    (∀ raw : String, (fixPadding raw).length % 4 = 0 ∧
      fixPadding raw = raw ++ String.mk (List.replicate ((4 - raw.length % 4) % 4) '=')) ∧
    (∀ (bytes : List Nat) (s t : String), (∀ x ∈ bytes, x < 256) →
      String.mk (b64EncodeList bytes) = s ++ t → (∀ c ∈ t.data, c = '=') →
      b64DecodeList (fixPadding s).data = some bytes) := by
  constructor
  · intro raw
    refine ⟨?_, fixPadding_eq raw⟩
    rw [fixPadding_eq raw, String.length_append]
    have hmk : (String.mk (List.replicate ((4 - raw.length % 4) % 4) '=')).length =
        (4 - raw.length % 4) % 4 := by
      show (List.replicate ((4 - raw.length % 4) % 4) '=').length = _
      exact List.length_replicate _ _
    rw [hmk]
    have hm : raw.length % 4 < 4 := Nat.mod_lt _ (by norm_num)
    omega
  · intro bytes s t hb hsplit hpad
    have hdata : b64EncodeList bytes = s.data ++ t.data := by
      have hd := congrArg String.data hsplit
      rw [String.data_append] at hd
      exact hd
    have hfix : (fixPadding s).data =
        s.data ++ List.replicate ((4 - s.data.length % 4) % 4) '=' := by
      rw [fixPadding_eq s, String.data_append]
      rfl
    rw [hfix]
    exact b64_strip_roundtrip bytes hb s.data t.data hdata hpad

/-- C9 (witness): the encoding of the bytes of `"Ma"` is `"TWE="`;
stripping its padding character and restoring recovers the bytes. -/
theorem c9_witness :
    (fixPadding "TWE").length % 4 = 0 ∧
    b64DecodeList (fixPadding "TWE").data = some [77, 97] :=
  ⟨(c9_padding_roundtrip.1 "TWE").1,
   c9_padding_roundtrip.2 [77, 97] "TWE" "=" (by decide) (by decide) (by decide)⟩
